import Mathlib

/-!
Verification of the meteocat client library's response decoding pipeline.

The Go source (`client.go`, `model/common.go`, `model/forecast.go`) is shallowly
embedded below: byte buffers are `List Nat` (each element a byte value 0-255),
Go strings are Lean `String`s, integers are `Int`/`Nat`, and fallible Go
functions returning `(T, error)` become `Except`/`Option` valued Lean functions.
Go standard-library collaborators that are not part of this repository
(`encoding/json` unmarshalling into caller types, `mime.ParseMediaType`
parameter extraction, float64 parse-and-format) are modelled as explicit
function parameters ("oracles") so that theorems quantify over any behaviour
of those collaborators; everything written in the repository itself is
embedded directly.
-/

set_option maxRecDepth 100000

namespace Meteocat

/-- Model of `model.APIError` (`model/unnamed` APIError struct):
a structured error with a numeric code and a message. -/
structure APIError where
  code : Int
  message : String
deriving DecidableEq, Repr

instance {ε α : Type} [DecidableEq ε] [DecidableEq α] : DecidableEq (Except ε α) := fun x y =>
  match x, y with
  | .ok a, .ok b =>
    if h : a = b then isTrue (congrArg Except.ok h)
    else isFalse (fun hc => h (Except.ok.inj hc))
  | .error a, .error b =>
    if h : a = b then isTrue (congrArg Except.error h)
    else isFalse (fun hc => h (Except.error.inj hc))
  | .ok _, .error _ => isFalse (fun hc => Except.noConfusion hc)
  | .error _, .ok _ => isFalse (fun hc => Except.noConfusion hc)

/-- Model of `strings.ToLower` (Go's Unicode-aware lowering agrees with
`Char.toLower` on the ASCII header and charset values the source handles). -/
def goToLower (s : String) : String :=
  String.mk (s.data.map Char.toLower)

/-- ASCII whitespace recogniser (the whitespace that can occur around a
`charset` media-type parameter). -/
def isWS (c : Char) : Bool :=
  c = ' ' || c = '\t' || c = '\n' || c = '\r'

def dropLeadingWS : List Char → List Char
  | [] => []
  | c :: t => if isWS c then dropLeadingWS t else c :: t

/-- Model of `strings.TrimSpace`. -/
def goTrimSpace (s : String) : String :=
  String.mk ((dropLeadingWS (dropLeadingWS s.data).reverse).reverse)

/-- Byte-list prefix test used by the string containment model. -/
def listIsPrefix : List Char → List Char → Bool
  | [], _ => true
  | _ :: _, [] => false
  | a :: as, b :: bs => a = b && listIsPrefix as bs

/-- Occurrence of `pat` as a contiguous run inside `hay`; models
`strings.Contains` from the Go standard library (byte-level containment
coincides with character-level containment for the ASCII patterns the
source uses, since UTF-8 continuation bytes never match ASCII bytes). -/
def containsSub (pat : List Char) : List Char → Bool
  | [] => pat.isEmpty
  | c :: t => listIsPrefix pat (c :: t) || containsSub pat t

/-- `strings.Contains s pat` model on Lean strings. -/
def strContains (s pat : String) : Bool :=
  containsSub pat.data s.data

/-- `pat` occurs contiguously inside `s` (propositional form). -/
def occursIn (pat s : String) : Prop :=
  ∃ l r, s.data = l ++ pat.data ++ r

theorem listIsPrefix_iff (p h : List Char) :
    listIsPrefix p h = true ↔ ∃ r, h = p ++ r := by
  induction p generalizing h with
  | nil => simp [listIsPrefix]
  | cons a as ih =>
    cases h with
    | nil => simp [listIsPrefix]
    | cons b bs =>
      simp only [listIsPrefix, Bool.and_eq_true, decide_eq_true_eq, ih]
      constructor
      · rintro ⟨rfl, r, rfl⟩
        exact ⟨r, rfl⟩
      · rintro ⟨r, hr⟩
        injection hr with h1 h2
        exact ⟨h1.symm, r, h2⟩

theorem containsSub_iff (p h : List Char) :
    containsSub p h = true ↔ ∃ l r, h = l ++ p ++ r := by
  induction h with
  | nil =>
    simp only [containsSub, List.isEmpty_iff]
    constructor
    · rintro rfl
      exact ⟨[], [], rfl⟩
    · rintro ⟨l, r, hr⟩
      have h1 := List.append_eq_nil.mp hr.symm
      exact (List.append_eq_nil.mp h1.1).2
  | cons c t ih =>
    simp only [containsSub, Bool.or_eq_true, listIsPrefix_iff, ih]
    constructor
    · rintro (⟨r, hr⟩ | ⟨l, r, hr⟩)
      · exact ⟨[], r, by simp [hr]⟩
      · exact ⟨c :: l, r, by simp [hr]⟩
    · rintro ⟨l, r, hr⟩
      cases l with
      | nil => exact Or.inl ⟨r, by simpa using hr⟩
      | cons x xs =>
        injection hr with h1 h2
        exact Or.inr ⟨xs, r, by simp [h2]⟩

theorem strContains_iff (s pat : String) :
    strContains s pat = true ↔ occursIn pat s := by
  unfold strContains occursIn
  exact containsSub_iff pat.data s.data

/-- `client.go` `isJSONContent`: reports whether the content type indicates
JSON or a JSON-based media type.  The Go source lower-cases the header and
tests `strings.Contains(ct, "application/json") || strings.Contains(ct, "+json")`.
(Go's Unicode-aware `strings.ToLower` agrees with Lean's `String.toLower`
on ASCII header values, which is all that media types contain.) -/
def isJSONContent (contentType : String) : Bool :=
  let ct := goToLower contentType
  strContains ct "application/json" || strContains ct "+json"

/-- Modelled from the spec's words (for comparison with `isJSONContent`):
"return true if it contains `application/json` or ends with the suffix
pattern `+json`". -/
def isJSONContentClaimed (contentType : String) : Bool :=
  let ct := goToLower contentType
  strContains ct "application/json" || "+json".data.isSuffixOf ct.data

/-- C8 counterexample: on the media type `application/geo+json; charset=utf-8`
the source's negotiator answers `true` (the value contains `+json`), while the
claimed contains-`application/json`-or-ends-with-`+json` predicate answers
`false` (the value ends in `utf-8`), so the claimed characterisation is not
the function the source implements. -/
theorem isJSONContent_counterexample :
    isJSONContent "application/geo+json; charset=utf-8" = true ∧
    isJSONContentClaimed "application/geo+json; charset=utf-8" = false := by
  constructor <;> decide

/-- C8 (amended): the content negotiator returns true for a content-type
header value if and only if the lower-cased value contains
`application/json` or contains `+json` anywhere (not merely as a suffix);
for every other header value it returns false. -/
theorem isJSONContent_amended (ct : String) :
    isJSONContent ct = true ↔
      (occursIn "application/json" (goToLower ct) ∨ occursIn "+json" (goToLower ct)) := by
  unfold isJSONContent
  simp only [Bool.or_eq_true, strContains_iff]

/-- Model of `fmt`'s `%q` verb on strings: wrap in double quotes, escaping
quotes and backslashes.  (`%q` additionally escapes non-printable characters,
which none of the header values, charset tokens or messages in play contain.) -/
def goQuote (s : String) : String :=
  "\"" ++ String.mk (s.data.flatMap (fun c =>
    if c = '"' then ['\\', '"'] else if c = '\\' then ['\\', '\\'] else [c])) ++ "\""

/-- Model of Go's `string(bytes)` conversion, used where the source turns a
response body into an error message.  Each byte becomes the code point of the
same value; this agrees byte-for-byte with Go (which copies the bytes) on the
ASCII bodies the theorems evaluate. -/
def bytesToStr (bs : List Nat) : String :=
  String.mk (bs.map Char.ofNat)

/-- The UTF-8 bytes of an ASCII string, used to write concrete response
bodies. -/
def asciiBytes (s : String) : List Nat :=
  s.data.map Char.toNat

/-- UTF-8 continuation byte test (`0x80`–`0xBF`). -/
def isCont (b : Nat) : Bool :=
  decide (0x80 ≤ b) && decide (b ≤ 0xBF)

/-- Admissible second byte of a three-byte UTF-8 sequence headed by `b`
(surrogate and overlong exclusions, as in Go's `unicode/utf8` accept
ranges). -/
def validSecond3 (b c1 : Nat) : Bool :=
  if b = 0xE0 then decide (0xA0 ≤ c1) && decide (c1 ≤ 0xBF)
  else if b = 0xED then decide (0x80 ≤ c1) && decide (c1 ≤ 0x9F)
  else isCont c1

/-- Admissible second byte of a four-byte UTF-8 sequence headed by `b`. -/
def validSecond4 (b c1 : Nat) : Bool :=
  if b = 0xF0 then decide (0x90 ≤ c1) && decide (c1 ≤ 0xBF)
  else if b = 0xF4 then decide (0x80 ≤ c1) && decide (c1 ≤ 0x8F)
  else isCont c1

/-- Model of `unicode/utf8.Valid`: whether the byte sequence is well-formed
UTF-8 (RFC 3629: no overlong forms, no surrogates, max U+10FFFF). -/
def utf8Valid : List Nat → Bool
  | [] => true
  | b :: rest =>
    if b ≤ 0x7F then utf8Valid rest
    else if 0xC2 ≤ b ∧ b ≤ 0xDF then
      match rest with
      | c1 :: r => isCont c1 && utf8Valid r
      | [] => false
    else if 0xE0 ≤ b ∧ b ≤ 0xEF then
      match rest with
      | c1 :: c2 :: r => validSecond3 b c1 && isCont c2 && utf8Valid r
      | _ => false
    else if 0xF0 ≤ b ∧ b ≤ 0xF4 then
      match rest with
      | c1 :: c2 :: c3 :: r => validSecond4 b c1 && isCont c2 && isCont c3 && utf8Valid r
      | _ => false
    else false

/-- Fuelled UTF-8 decoding step loop; every step consumes at least one byte,
so fuel equal to the buffer length always suffices (see `utf8Decode`). -/
def utf8DecodeFuel : Nat → List Nat → List Nat
  | 0, _ => []
  | _ + 1, [] => []
  | fuel + 1, b :: rest =>
    if b ≤ 0x7F then b :: utf8DecodeFuel fuel rest
    else if 0xC2 ≤ b ∧ b ≤ 0xDF then
      match rest with
      | c1 :: r =>
        if isCont c1 then (((b % 0x20) <<< 6) + c1 % 0x40) :: utf8DecodeFuel fuel r
        else 0xFFFD :: utf8DecodeFuel fuel (c1 :: r)
      | [] => [0xFFFD]
    else if 0xE0 ≤ b ∧ b ≤ 0xEF then
      match rest with
      | c1 :: c2 :: r =>
        if validSecond3 b c1 && isCont c2 then
          (((b % 0x10) <<< 12) + ((c1 % 0x40) <<< 6) + c2 % 0x40) :: utf8DecodeFuel fuel r
        else 0xFFFD :: utf8DecodeFuel fuel (c1 :: c2 :: r)
      | [c1] => 0xFFFD :: utf8DecodeFuel fuel [c1]
      | [] => [0xFFFD]
    else if 0xF0 ≤ b ∧ b ≤ 0xF4 then
      match rest with
      | c1 :: c2 :: c3 :: r =>
        if validSecond4 b c1 && isCont c2 && isCont c3 then
          (((b % 8) <<< 18) + ((c1 % 0x40) <<< 12) + ((c2 % 0x40) <<< 6) + c3 % 0x40) ::
            utf8DecodeFuel fuel r
        else 0xFFFD :: utf8DecodeFuel fuel (c1 :: c2 :: c3 :: r)
      | [c1, c2] => 0xFFFD :: utf8DecodeFuel fuel [c1, c2]
      | [c1] => 0xFFFD :: utf8DecodeFuel fuel [c1]
      | [] => [0xFFFD]
    else 0xFFFD :: utf8DecodeFuel fuel rest

/-- UTF-8 decoder used to state what code points a converted buffer denotes
(repeated `unicode/utf8.DecodeRune`: a malformed sequence yields U+FFFD and
consumes one byte). -/
def utf8Decode (l : List Nat) : List Nat :=
  utf8DecodeFuel l.length l

/-- UTF-8 encoding of a single code point, as produced by Go's
`string(rune)` / `utf8.AppendRune` (invalid code points encode the
replacement character U+FFFD). -/
def utf8Encode (r : Nat) : List Nat :=
  if r < 0x80 then [r]
  else if r < 0x800 then [0xC0 + (r >>> 6), 0x80 + r % 0x40]
  else if (0xD800 ≤ r ∧ r ≤ 0xDFFF) ∨ 0x10FFFF < r then [0xEF, 0xBF, 0xBD]
  else if r < 0x10000 then
    [0xE0 + (r >>> 12), 0x80 + (r >>> 6) % 0x40, 0x80 + r % 0x40]
  else
    [0xF0 + (r >>> 18), 0x80 + (r >>> 12) % 0x40, 0x80 + (r >>> 6) % 0x40, 0x80 + r % 0x40]

/-- `client.go` `latin1ToUTF8`: re-encode each ISO-8859-1 byte as UTF-8
(`0xC0|(b>>6), 0x80|(b&0x3F)` for bytes at or above 0x80; lower bytes pass
through). -/
def latin1ToUTF8 : List Nat → List Nat
  | [] => []
  | b :: rest =>
    (if b < 0x80 then [b] else [0xC0 ||| (b >>> 6), 0x80 ||| (b &&& 0x3F)]) ++ latin1ToUTF8 rest

/-- `client.go` `latin9ToUTF8`'s exception table: the eight ISO-8859-15
positions that differ from ISO-8859-1. -/
def latin9Map (b : Nat) : Option Nat :=
  if b = 0xA4 then some 0x20AC
  else if b = 0xA6 then some 0x0160
  else if b = 0xA8 then some 0x0161
  else if b = 0xB4 then some 0x017D
  else if b = 0xB8 then some 0x017E
  else if b = 0xBC then some 0x0152
  else if b = 0xBD then some 0x0153
  else if b = 0xBE then some 0x0178
  else none

/-- `client.go` `latin9ToUTF8`: ISO-8859-15 conversion — the eight exception
code points re-encode via UTF-8, all other bytes follow the Latin-1 rule. -/
def latin9ToUTF8 : List Nat → List Nat
  | [] => []
  | b :: rest =>
    (match latin9Map b with
     | some r => utf8Encode r
     | none => if b < 0x80 then [b] else [0xC0 ||| (b >>> 6), 0x80 ||| (b &&& 0x3F)]) ++
    latin9ToUTF8 rest

/-- `client.go` `windows1252ToUTF8`'s 32-entry table mapping bytes
0x80–0x9F to Unicode code points (unmapped slots hold U+FFFD). -/
def win1252Table : List Nat :=
  [0x20AC, 0xFFFD, 0x201A, 0x0192,
   0x201E, 0x2026, 0x2020, 0x2021,
   0x02C6, 0x2030, 0x0160, 0x2039,
   0x0152, 0xFFFD, 0x017D, 0xFFFD,
   0xFFFD, 0x2018, 0x2019, 0x201C,
   0x201D, 0x2022, 0x2013, 0x2014,
   0x02DC, 0x2122, 0x0161, 0x203A,
   0x0153, 0xFFFD, 0x017E, 0x0178]

/-- `client.go` `windows1252ToUTF8`: bytes below 0x80 pass through, bytes at
or above 0xA0 follow the Latin-1 two-byte rule, bytes 0x80–0x9F map through
`win1252Table`. -/
def windows1252ToUTF8 : List Nat → List Nat
  | [] => []
  | b :: rest =>
    (if b < 0x80 then [b]
     else if 0xA0 ≤ b then [0xC0 ||| (b >>> 6), 0x80 ||| (b &&& 0x3F)]
     else utf8Encode (win1252Table.getD (b - 0x80) 0xFFFD)) ++
    windows1252ToUTF8 rest

/-- C4: the legacy-charset converters are total over all 256 byte values:
Latin-1 maps `b < 0x80` to itself and higher bytes to the stated two-byte
sequence, so a single byte always converts to exactly one code point equal to
its value; Windows-1252 passes bytes below 0x80 through, applies the Latin-1
rule at or above 0xA0, and routes 0x80–0x9F through the fixed 32-entry table,
under which byte 0x80 denotes the Euro sign U+20AC and the unmapped byte 0x81
denotes the replacement character U+FFFD. -/
theorem legacyCharsetTables_spec :
    (∀ b : Fin 256, latin1ToUTF8 [b.val] =
      (if b.val < 0x80 then [b.val] else [0xC0 ||| (b.val >>> 6), 0x80 ||| (b.val &&& 0x3F)])) ∧
    (∀ b : Fin 256, utf8Decode (latin1ToUTF8 [b.val]) = [b.val]) ∧
    (∀ b : Fin 256, utf8Decode (windows1252ToUTF8 [b.val]) =
      [if b.val < 0x80 then b.val
       else if 0xA0 ≤ b.val then b.val
       else win1252Table.getD (b.val - 0x80) 0]) ∧
    utf8Decode (windows1252ToUTF8 [0x80]) = [0x20AC] ∧
    utf8Decode (windows1252ToUTF8 [0x81]) = [0xFFFD] := by
  refine ⟨by decide, by decide, by decide, by decide, by decide⟩

/-- The charset token the source extracts at `client.go:178`:
`strings.ToLower(strings.TrimSpace(params["charset"]))`.  The argument is the
raw `charset` parameter value produced by `mime.ParseMediaType` (a Go
standard-library collaborator; when the header is empty or fails media-type
parsing the source leaves the parameter empty, which corresponds to passing
`""` here). -/
def charsetToken (charsetParam : String) : String :=
  goToLower (goTrimSpace charsetParam)

/-- The charset tokens `client.go` `normalizeJSONBytes` has a conversion
for (the cases of its `switch`). -/
def supportedCharsets : List String :=
  ["", "utf-8", "utf8",
   "iso-8859-1", "iso8859-1", "latin1",
   "iso-8859-15", "iso8859-15", "latin9",
   "windows-1252", "cp1252"]

/-- `client.go` `normalizeJSONBytes`: ensure a JSON payload is valid UTF-8
before unmarshalling, converting from the supported legacy encodings and
rejecting unknown declared charsets whose bytes are not already valid
UTF-8.  `contentType` is the raw header value (used only in the error
message); `charsetParam` is the extracted `charset` parameter. -/
def normalizeJSONBytes (contentType charsetParam : String) (respBytes : List Nat) :
    Except APIError (List Nat) :=
  if respBytes.length = 0 then .ok respBytes
  else
    let charset := charsetToken charsetParam
    if charset = "" ∨ charset = "utf-8" ∨ charset = "utf8" then
      if utf8Valid respBytes then .ok respBytes else .ok (latin1ToUTF8 respBytes)
    else if charset = "iso-8859-1" ∨ charset = "iso8859-1" ∨ charset = "latin1" then
      .ok (latin1ToUTF8 respBytes)
    else if charset = "iso-8859-15" ∨ charset = "iso8859-15" ∨ charset = "latin9" then
      .ok (latin9ToUTF8 respBytes)
    else if charset = "windows-1252" ∨ charset = "cp1252" then
      .ok (windows1252ToUTF8 respBytes)
    else if utf8Valid respBytes then .ok respBytes
    else .error ⟨0, "unsupported charset " ++ goQuote charset ++ " in content-type " ++
      goQuote contentType⟩

/-- C3: for a non-empty body, when the (trimmed, lower-cased) declared charset
token is empty, `utf-8` or `utf8`, normalization returns the bytes unchanged
if they are valid UTF-8 and otherwise applies the Latin-1 fallback; when the
token is outside the supported set, valid UTF-8 passes unchanged and anything
else fails with an error (code 0) naming the charset token and the
content-type header. -/
theorem normalizeJSONBytes_spec (ct cp : String) (bs : List Nat) (hne : bs ≠ []) :
    ((charsetToken cp = "" ∨ charsetToken cp = "utf-8" ∨ charsetToken cp = "utf8") →
      (utf8Valid bs = true → normalizeJSONBytes ct cp bs = .ok bs) ∧
      (utf8Valid bs = false → normalizeJSONBytes ct cp bs = .ok (latin1ToUTF8 bs))) ∧
    (charsetToken cp ∉ supportedCharsets →
      (utf8Valid bs = true → normalizeJSONBytes ct cp bs = .ok bs) ∧
      (utf8Valid bs = false → normalizeJSONBytes ct cp bs = .error
        ⟨0, "unsupported charset " ++ goQuote (charsetToken cp) ++ " in content-type " ++
          goQuote ct⟩)) := by
  have hlen : ¬bs.length = 0 := by
    have := List.length_pos.mpr hne
    omega
  constructor
  · intro hcs
    constructor <;> intro hval <;>
      simp [normalizeJSONBytes, hlen, hcs, hval]
  · intro hmem
    simp only [supportedCharsets, List.mem_cons, List.not_mem_nil, or_false, not_or] at hmem
    obtain ⟨h1, h2, h3, h4, h5, h6, h7, h8, h9, h10, h11⟩ := hmem
    constructor <;> intro hval <;>
      simp [normalizeJSONBytes, hlen, h1, h2, h3, h4, h5, h6, h7, h8, h9, h10, h11, hval]

/-- C3 witness: concrete instances — a valid-UTF-8 body under declared charset
`UTF-8` passes unchanged; a non-UTF-8 body under the default charset is
Latin-1 converted; a non-UTF-8 body under declared charset `utf-16` fails
with the unsupported-charset error of code 0. -/
theorem normalizeJSONBytes_spec_witness :
    normalizeJSONBytes "application/json; charset=UTF-8" "UTF-8" [0x7B, 0x7D] = .ok [0x7B, 0x7D] ∧
    normalizeJSONBytes "application/json" "" [0xE9] = .ok [0xC3, 0xA9] ∧
    normalizeJSONBytes "application/json; charset=utf-16" "utf-16" [0xE9] = .error
      ⟨0, "unsupported charset \"utf-16\" in content-type \"application/json; charset=utf-16\""⟩ := by
  refine ⟨?_, ?_, ?_⟩
  · exact ((normalizeJSONBytes_spec "application/json; charset=UTF-8" "UTF-8" [0x7B, 0x7D]
      (by decide)).1 (by decide)).1 (by decide)
  · exact ((normalizeJSONBytes_spec "application/json" "" [0xE9]
      (by decide)).1 (by decide)).2 (by decide)
  · exact ((normalizeJSONBytes_spec "application/json; charset=utf-16" "utf-16" [0xE9]
      (by decide)).2 (by decide)).2 (by decide)

/-- Model of `io.ReadAll(io.LimitReader(resp.Body, limit+1))`: the executor
reads at most `limit + 1` bytes from the stream (`body` is the full stream
contents). -/
def limitedRead (limit : Nat) (body : List Nat) : List Nat :=
  body.take (limit + 1)

/-- `client.go` `readResponseBody`: bounded body read; more than
`maxResponseBody` bytes fails with a structured error carrying the response
status and the configured limit. -/
def readResponseBody (limit : Nat) (status : Int) (body : List Nat) :
    Except APIError (List Nat) :=
  let respBytes := limitedRead limit body
  if limit < respBytes.length then
    .error ⟨status, "response body too large: limit " ++ toString limit ++ " bytes"⟩
  else .ok respBytes

/-- `NewClient`'s `maxResponseBody: 10 << 20` default. -/
def defaultMaxResponseBody : Nat := 10 <<< 20

/-- C5: the body reader consumes at most `limit + 1` bytes of the stream; a
stream longer than the limit fails with an error carrying the response status
and a message stating the configured limit (whose default is 10 MiB =
10485760 bytes), and any stream within the limit is returned in full (possibly
zero-length), regardless of status code or content type. -/
theorem readResponseBody_spec (limit : Nat) (status : Int) (body : List Nat) :
    (limitedRead limit body).length ≤ limit + 1 ∧
    (limit < body.length → readResponseBody limit status body =
      .error ⟨status, "response body too large: limit " ++ toString limit ++ " bytes"⟩) ∧
    (body.length ≤ limit → readResponseBody limit status body = .ok body) ∧
    defaultMaxResponseBody = 10485760 := by
  refine ⟨?_, ?_, ?_, by decide⟩
  · simp [limitedRead]
  · intro hover
    have htake : (limitedRead limit body).length = limit + 1 := by
      simp [limitedRead]
      omega
    simp [readResponseBody, htake]
  · intro hunder
    have htake : limitedRead limit body = body := by
      apply List.take_of_length_le
      omega
    simp [readResponseBody, htake]
    omega

/-- C5 witness: with limit 2, a 3-byte stream fails with the
limit-naming error at status 200, and an empty and a 2-byte stream are
returned as read. -/
theorem readResponseBody_spec_witness :
    readResponseBody 2 200 [1, 2, 3] =
      .error ⟨200, "response body too large: limit 2 bytes"⟩ ∧
    readResponseBody 2 200 ([] : List Nat) = .ok [] ∧
    readResponseBody 2 404 [9, 9] = .ok [9, 9] := by
  refine ⟨?_, ?_, ?_⟩
  · exact (readResponseBody_spec 2 200 [1, 2, 3]).2.1 (by decide)
  · exact (readResponseBody_spec 2 200 []).2.2.1 (by decide)
  · exact (readResponseBody_spec 2 404 [9, 9]).2.2.1 (by decide)

/-- String prefix test on Lean strings (used to state that both empty-body
messages announce an empty body). -/
def strHasPrefix (pre s : String) : Bool :=
  listIsPrefix pre.data s.data

theorem strHasPrefix_append (pre lit q : String)
    (h : listIsPrefix pre.data lit.data = true) :
    strHasPrefix pre (lit ++ q) = true := by
  unfold strHasPrefix
  rw [String.data_append]
  obtain ⟨r, hr⟩ := (listIsPrefix_iff pre.data lit.data).mp h
  exact (listIsPrefix_iff pre.data (lit.data ++ q.data)).mpr
    ⟨r ++ q.data, by rw [hr, List.append_assoc]⟩

/-- `client.go` `handleSuccessResponse`: decode a 2xx response.
`unmarshalErr` is the `encoding/json` collaborator for the caller-supplied
target: `none` means `json.Unmarshal(respBytes, out)` succeeded (populating
the target), `some msg` means it failed with parser message `msg`. -/
def handleSuccessResponse (unmarshalErr : List Nat → Option String) (status : Int)
    (contentType : String) (respBytes : List Nat) : Option APIError :=
  let isJSON := isJSONContent contentType
  if respBytes.length = 0 then
    if status = 204 then none
    else if isJSON = false then
      some ⟨status, "empty response body for content-type " ++ goQuote contentType⟩
    else some ⟨status, "empty response body"⟩
  else if isJSON = false then
    some ⟨status, "unexpected content-type " ++ goQuote contentType⟩
  else
    match unmarshalErr respBytes with
    | some msg => some ⟨status, "unmarshal response: " ++ msg⟩
    | none => none

/-- C1: for a 2xx response the success decoder checks emptiness, then
content-type, then the JSON parse: an empty body succeeds exactly when the
status is 204 and otherwise fails with an empty-body error whose code is the
HTTP status, whatever the declared content-type; a non-empty body with a
non-JSON content-type fails naming the declared type no matter what the
unmarshaller would have said; otherwise the unmarshaller runs, a parse failure
becoming an error wrapping the parser message with the HTTP status as code. -/
theorem handleSuccessResponse_spec (u : List Nat → Option String) (status : Int)
    (ct : String) (bs : List Nat) (hstat : 200 ≤ status ∧ status < 300) :
    (bs = [] → (handleSuccessResponse u status ct bs = none ↔ status = 204)) ∧
    (bs = [] → status ≠ 204 → ∃ m, handleSuccessResponse u status ct bs = some ⟨status, m⟩ ∧
      strHasPrefix "empty response body" m = true) ∧
    (bs ≠ [] → isJSONContent ct = false →
      handleSuccessResponse u status ct bs =
        some ⟨status, "unexpected content-type " ++ goQuote ct⟩) ∧
    (bs ≠ [] → isJSONContent ct = true → u bs = none →
      handleSuccessResponse u status ct bs = none) ∧
    (bs ≠ [] → isJSONContent ct = true → ∀ m, u bs = some m →
      handleSuccessResponse u status ct bs = some ⟨status, "unmarshal response: " ++ m⟩) := by
  refine ⟨?_, ?_, ?_, ?_, ?_⟩
  · rintro rfl
    constructor
    · intro h
      by_contra hne
      rcases hj : isJSONContent ct with _ | _ <;>
        simp [handleSuccessResponse, hne, hj] at h
    · rintro rfl
      simp [handleSuccessResponse]
  · rintro rfl hne
    rcases hj : isJSONContent ct with _ | _
    · exact ⟨"empty response body for content-type " ++ goQuote ct,
        by simp [handleSuccessResponse, hne, hj],
        strHasPrefix_append "empty response body" "empty response body for content-type "
          (goQuote ct) (by decide)⟩
    · exact ⟨"empty response body", by simp [handleSuccessResponse, hne, hj], by decide⟩
  · intro hne hj
    have hlen : ¬bs.length = 0 := by
      have := List.length_pos.mpr hne
      omega
    simp [handleSuccessResponse, hlen, hj]
  · intro hne hj hu
    have hlen : ¬bs.length = 0 := by
      have := List.length_pos.mpr hne
      omega
    simp [handleSuccessResponse, hlen, hj, hu]
  · intro hne hj m hu
    have hlen : ¬bs.length = 0 := by
      have := List.length_pos.mpr hne
      omega
    simp [handleSuccessResponse, hlen, hj, hu]

/-- C1 witness: concrete instances of each checked branch — 204/empty
succeeds, 200/empty fails with the empty-body error even under a JSON
content-type, a non-JSON 200 fails naming `text/html` even though the body
is valid JSON and the unmarshaller would succeed, a JSON 200 decodes, and a
parse failure is wrapped with status 200. -/
theorem handleSuccessResponse_spec_witness :
    handleSuccessResponse (fun _ => none) 204 "application/json" [] = none ∧
    (∃ m, handleSuccessResponse (fun _ => none) 200 "application/json" [] =
      some ⟨200, m⟩ ∧ strHasPrefix "empty response body" m = true) ∧
    handleSuccessResponse (fun _ => none) 200 "text/html" (asciiBytes "\x7b\x7d") =
      some ⟨200, "unexpected content-type \"text/html\""⟩ ∧
    handleSuccessResponse (fun _ => none) 200 "application/json" (asciiBytes "\x7b\x7d") = none ∧
    handleSuccessResponse (fun _ => some "invalid character") 200 "application/json"
      (asciiBytes "nope") = some ⟨200, "unmarshal response: invalid character"⟩ := by
  refine ⟨?_, ?_, ?_, ?_, ?_⟩
  · exact ((handleSuccessResponse_spec (fun _ => none) 204 "application/json" []
      (by decide)).1 rfl).mpr rfl
  · exact (handleSuccessResponse_spec (fun _ => none) 200 "application/json" []
      (by decide)).2.1 rfl (by decide)
  · exact (handleSuccessResponse_spec (fun _ => none) 200 "text/html" (asciiBytes "\x7b\x7d")
      (by decide)).2.2.1 (by decide) (by decide)
  · exact (handleSuccessResponse_spec (fun _ => none) 200 "application/json"
      (asciiBytes "\x7b\x7d") (by decide)).2.2.2.1 (by decide) (by decide) rfl
  · exact (handleSuccessResponse_spec (fun _ => some "invalid character") 200
      "application/json" (asciiBytes "nope") (by decide)).2.2.2.2 (by decide) (by decide)
      "invalid character" rfl

/-- Model of Go `net/http.StatusText`: the standard reason phrase for a
status code, empty for unknown codes. -/
def statusText (code : Int) : String :=
  if code = 100 then "Continue"
  else if code = 101 then "Switching Protocols"
  else if code = 102 then "Processing"
  else if code = 103 then "Early Hints"
  else if code = 200 then "OK"
  else if code = 201 then "Created"
  else if code = 202 then "Accepted"
  else if code = 203 then "Non-Authoritative Information"
  else if code = 204 then "No Content"
  else if code = 205 then "Reset Content"
  else if code = 206 then "Partial Content"
  else if code = 207 then "Multi-Status"
  else if code = 208 then "Already Reported"
  else if code = 226 then "IM Used"
  else if code = 300 then "Multiple Choices"
  else if code = 301 then "Moved Permanently"
  else if code = 302 then "Found"
  else if code = 303 then "See Other"
  else if code = 304 then "Not Modified"
  else if code = 305 then "Use Proxy"
  else if code = 307 then "Temporary Redirect"
  else if code = 308 then "Permanent Redirect"
  else if code = 400 then "Bad Request"
  else if code = 401 then "Unauthorized"
  else if code = 402 then "Payment Required"
  else if code = 403 then "Forbidden"
  else if code = 404 then "Not Found"
  else if code = 405 then "Method Not Allowed"
  else if code = 406 then "Not Acceptable"
  else if code = 407 then "Proxy Authentication Required"
  else if code = 408 then "Request Timeout"
  else if code = 409 then "Conflict"
  else if code = 410 then "Gone"
  else if code = 411 then "Length Required"
  else if code = 412 then "Precondition Failed"
  else if code = 413 then "Request Entity Too Large"
  else if code = 414 then "Request URI Too Long"
  else if code = 415 then "Unsupported Media Type"
  else if code = 416 then "Requested Range Not Satisfiable"
  else if code = 417 then "Expectation Failed"
  else if code = 418 then "I'm a teapot"
  else if code = 421 then "Misdirected Request"
  else if code = 422 then "Unprocessable Entity"
  else if code = 423 then "Locked"
  else if code = 424 then "Failed Dependency"
  else if code = 425 then "Too Early"
  else if code = 426 then "Upgrade Required"
  else if code = 428 then "Precondition Required"
  else if code = 429 then "Too Many Requests"
  else if code = 431 then "Request Header Fields Too Large"
  else if code = 451 then "Unavailable For Legal Reasons"
  else if code = 500 then "Internal Server Error"
  else if code = 501 then "Not Implemented"
  else if code = 502 then "Bad Gateway"
  else if code = 503 then "Service Unavailable"
  else if code = 504 then "Gateway Timeout"
  else if code = 505 then "HTTP Version Not Supported"
  else if code = 506 then "Variant Also Negotiates"
  else if code = 507 then "Insufficient Storage"
  else if code = 508 then "Loop Detected"
  else if code = 510 then "Not Extended"
  else if code = 511 then "Network Authentication Required"
  else ""

/-- `client.go` `handleErrorResponse`: build a structured error from a
non-2xx response.  `parseAPIError` is the `encoding/json` collaborator for
the `{code, message}` shape: `none` means `json.Unmarshal` failed, `some e`
means it populated `e`. -/
def handleErrorResponse (parseAPIError : List Nat → Option APIError) (status : Int)
    (respBytes : List Nat) : APIError :=
  if respBytes.length = 0 then ⟨status, statusText status⟩
  else
    match parseAPIError respBytes with
    | none => ⟨status, bytesToStr respBytes⟩
    | some e =>
      if e.message = "" ∧ e.code = 0 then ⟨status, bytesToStr respBytes⟩
      else if e.code = 0 then ⟨status, e.message⟩
      else e

/-- C2: for a non-2xx response, an empty body yields the HTTP status paired
with its standard reason phrase; a body that unmarshals to a `{code, message}`
payload with some non-zero/non-empty field is returned as-is, with code
defaulted to the HTTP status when the payload's code is zero; a body that
fails to unmarshal, or parses to the all-empty shape, falls back to the HTTP
status paired with the raw body text. -/
theorem handleErrorResponse_spec (p : List Nat → Option APIError) (status : Int)
    (bs : List Nat) :
    (bs = [] → handleErrorResponse p status bs = ⟨status, statusText status⟩) ∧
    (bs ≠ [] → p bs = none → handleErrorResponse p status bs = ⟨status, bytesToStr bs⟩) ∧
    (bs ≠ [] → ∀ e, p bs = some e → e.message = "" → e.code = 0 →
      handleErrorResponse p status bs = ⟨status, bytesToStr bs⟩) ∧
    (bs ≠ [] → ∀ e, p bs = some e → ¬(e.message = "" ∧ e.code = 0) →
      handleErrorResponse p status bs =
        (if e.code = 0 then ⟨status, e.message⟩ else e)) := by
  refine ⟨?_, ?_, ?_, ?_⟩
  · rintro rfl
    simp [handleErrorResponse]
  · intro hne hp
    have hlen : ¬bs.length = 0 := by
      have := List.length_pos.mpr hne
      omega
    simp [handleErrorResponse, hlen, hp]
  · intro hne e hp hm hc
    have hlen : ¬bs.length = 0 := by
      have := List.length_pos.mpr hne
      omega
    simp [handleErrorResponse, hlen, hp, hm, hc]
  · intro hne e hp hnz
    have hlen : ¬bs.length = 0 := by
      have := List.length_pos.mpr hne
      omega
    simp [handleErrorResponse, hlen, hp, hnz]

/-- The `{code, message}` unmarshal collaborator used by the C2 witness: it
recognises exactly the JSON error payload of the spec's 404 example and fails
on everything else (as `json.Unmarshal` does on the plain-text 401 body). -/
def errParseExample : List Nat → Option APIError :=
  fun bs =>
    if bs = asciiBytes "\x7b\"code\":404,\"message\":\"Station not found\"\x7d" then
      some ⟨404, "Station not found"⟩
    else none

/-- C2 witness: status 404 with body `{"code":404,"message":"Station not
found"}` yields `{404, Station not found}`; status 401 with the plain-text
body `Invalid API key` yields `{401, Invalid API key}`; status 404 with an
empty body yields the standard reason phrase `Not Found`. -/
theorem handleErrorResponse_spec_witness :
    handleErrorResponse errParseExample 404
      (asciiBytes "\x7b\"code\":404,\"message\":\"Station not found\"\x7d") =
      ⟨404, "Station not found"⟩ ∧
    handleErrorResponse errParseExample 401 (asciiBytes "Invalid API key") =
      ⟨401, "Invalid API key"⟩ ∧
    handleErrorResponse errParseExample 404 [] = ⟨404, "Not Found"⟩ := by
  refine ⟨?_, ?_, ?_⟩
  · have h := (handleErrorResponse_spec errParseExample 404
      (asciiBytes "\x7b\"code\":404,\"message\":\"Station not found\"\x7d")).2.2.2
      (by decide) ⟨404, "Station not found"⟩ (by decide) (by decide)
    simpa using h
  · have h := (handleErrorResponse_spec errParseExample 401
      (asciiBytes "Invalid API key")).2.1 (by decide) (by decide)
    have hb : bytesToStr (asciiBytes "Invalid API key") = "Invalid API key" := by decide
    rw [hb] at h
    exact h
  · have h := (handleErrorResponse_spec errParseExample 404 []).1 rfl
    have hs : statusText 404 = "Not Found" := by decide
    rw [hs] at h
    exact h

/-- Model of `meteocat.Client` (`client.go`): the configuration a client
carries (the `http.Client` transport collaborator is not part of the decoded
state). -/
structure Client where
  baseURL : String
  userAgent : String
  maxResponseBody : Nat
  apiKey : String
deriving DecidableEq, Repr

/-- `client.go` `Client.String`:
`fmt.Sprintf("meteocat.Client{BaseURL:%s, APIKeySet:%t}", c.baseURL, c.apiKey != "")`. -/
def clientString (c : Client) : String :=
  "meteocat.Client\x7bBaseURL:" ++ c.baseURL ++ ", APIKeySet:" ++
    (if c.apiKey = "" then "false" else "true") ++ "\x7d"

/-- The key-independent text `clientString` produces for any client holding a
non-empty API key. -/
def clientStringTemplate (baseURL : String) : String :=
  "meteocat.Client\x7bBaseURL:" ++ baseURL ++ ", APIKeySet:true\x7d"

/-- C9 counterexample: the claim that the API key text never occurs in the
`String()` output fails for a client whose (non-empty) key is the word
`true`: the fixed `APIKeySet:true` fragment contains it.  (The output does
not depend on the key, but the claim as stated quantifies over its text.) -/
theorem clientString_counterexample :
    ("true" : String) ≠ "" ∧
    strContains
      (clientString ⟨"https://api.meteo.cat", "meteocat-go/0.1.0", 10485760, "true"⟩)
      "true" = true := by
  constructor
  · decide
  · decide

/-- C9 (amended): for every client with a non-empty API key the `String()`
output equals a fixed template determined by the base URL alone — hence any
two clients identical but for their non-empty keys render identically, and
the key's text can occur in the output only by coinciding with that
key-independent template text. -/
theorem clientString_amended (c c' : Client) :
    (c.apiKey ≠ "" → clientString c = clientStringTemplate c.baseURL) ∧
    (c.baseURL = c'.baseURL → c.apiKey ≠ "" → c'.apiKey ≠ "" →
      clientString c = clientString c') := by
  constructor
  · intro hk
    simp only [clientString, clientStringTemplate, if_neg hk]
    rw [String.append_assoc, String.append_assoc]
    congr 1
  · intro hb hk hk'
    simp [clientString, hk, hk', hb]

/-- C9 witness: two default-configured clients with different non-empty keys
render the same string, which matches the base-URL template. -/
theorem clientString_amended_witness :
    clientString ⟨"https://api.meteo.cat", "meteocat-go/0.1.0", 10485760, "key-one"⟩ =
      clientString ⟨"https://api.meteo.cat", "meteocat-go/0.1.0", 10485760, "key-two"⟩ ∧
    clientString ⟨"https://api.meteo.cat", "meteocat-go/0.1.0", 10485760, "key-one"⟩ =
      clientStringTemplate "https://api.meteo.cat" := by
  constructor
  · exact (clientString_amended
      ⟨"https://api.meteo.cat", "meteocat-go/0.1.0", 10485760, "key-one"⟩
      ⟨"https://api.meteo.cat", "meteocat-go/0.1.0", 10485760, "key-two"⟩).2 rfl
      (by decide) (by decide)
  · exact (clientString_amended
      ⟨"https://api.meteo.cat", "meteocat-go/0.1.0", 10485760, "key-one"⟩
      ⟨"https://api.meteo.cat", "meteocat-go/0.1.0", 10485760, "key-one"⟩).1 (by decide)

/-- The response data `Client.do` consumes once the transport has answered:
status code, `Content-Type` header value, the charset parameter
`mime.ParseMediaType` extracts from it, and the full body stream contents. -/
structure HTTPResponse where
  status : Int
  contentType : String
  charsetParam : String
  body : List Nat

/-- `client.go` `readAndNormalizeJSON`: bounded read, then charset
normalization. -/
def readAndNormalizeJSON (limit : Nat) (r : HTTPResponse) : Except APIError (List Nat) :=
  match readResponseBody limit r.status r.body with
  | .error e => .error e
  | .ok bs => normalizeJSONBytes r.contentType r.charsetParam bs

/-- The response-handling tail of `client.go` `Client.do` (after
`validateHTTPOut`, request preparation and transport, which precede any
response): read and normalize the body, then classify the status and decode.
`none` models `do` returning a nil error. -/
def doResponse (parseAPIError : List Nat → Option APIError)
    (unmarshalErr : List Nat → Option String) (limit : Nat) (r : HTTPResponse) :
    Option APIError :=
  match readAndNormalizeJSON limit r with
  | .error e => some e
  | .ok bs =>
    if r.status < 200 ∨ 300 ≤ r.status then
      some (handleErrorResponse parseAPIError r.status bs)
    else
      handleSuccessResponse unmarshalErr r.status r.contentType bs

/-- C10: body reading and charset normalization precede status
classification in `do`: whenever `readAndNormalizeJSON` fails, its error is
the result for every status code and for any behaviour of the JSON
collaborators (so the non-2xx error decoder is never consulted); in
particular an unsupported-charset body within the size limit yields the
code-0 charset error even for non-2xx statuses, and an oversized body yields
the limit error carrying the status. -/
theorem doResponse_pipeline_spec (p : List Nat → Option APIError)
    (u : List Nat → Option String) (limit : Nat) (r : HTTPResponse) :
    (∀ e, readAndNormalizeJSON limit r = .error e → doResponse p u limit r = some e) ∧
    (r.body ≠ [] → r.body.length ≤ limit →
      charsetToken r.charsetParam ∉ supportedCharsets → utf8Valid r.body = false →
      doResponse p u limit r = some
        ⟨0, "unsupported charset " ++ goQuote (charsetToken r.charsetParam) ++
          " in content-type " ++ goQuote r.contentType⟩) ∧
    (limit < r.body.length → doResponse p u limit r = some
      ⟨r.status, "response body too large: limit " ++ toString limit ++ " bytes"⟩) := by
  refine ⟨?_, ?_, ?_⟩
  · intro e he
    simp [doResponse, he]
  · intro hne hlim hmem hval
    have hread : readResponseBody limit r.status r.body = .ok r.body :=
      (readResponseBody_spec limit r.status r.body).2.2.1 hlim
    have hnorm : normalizeJSONBytes r.contentType r.charsetParam r.body = .error
        ⟨0, "unsupported charset " ++ goQuote (charsetToken r.charsetParam) ++
          " in content-type " ++ goQuote r.contentType⟩ :=
      ((normalizeJSONBytes_spec r.contentType r.charsetParam r.body hne).2 hmem).2 hval
    simp [doResponse, readAndNormalizeJSON, hread, hnorm]
  · intro hover
    have hread : readResponseBody limit r.status r.body = .error
        ⟨r.status, "response body too large: limit " ++ toString limit ++ " bytes"⟩ :=
      (readResponseBody_spec limit r.status r.body).2.1 hover
    simp [doResponse, readAndNormalizeJSON, hread]

/-- C10 witness: a 404 response whose body declares charset `utf-16` and is
not valid UTF-8 produces the code-0 unsupported-charset error (the error
decoder is bypassed), and a 500 response with a body over the limit produces
the limit error carrying status 500. -/
theorem doResponse_pipeline_spec_witness :
    doResponse (fun _ => none) (fun _ => none) 100
      ⟨404, "application/json; charset=utf-16", "utf-16", [0xE9]⟩ = some
        ⟨0, "unsupported charset \"utf-16\" in content-type \"application/json; charset=utf-16\""⟩ ∧
    doResponse (fun _ => none) (fun _ => none) 1
      ⟨500, "application/json", "", [1, 2, 3]⟩ = some
        ⟨500, "response body too large: limit 1 bytes"⟩ := by
  constructor
  · have h := (doResponse_pipeline_spec (fun _ => none) (fun _ => none) 100
      ⟨404, "application/json; charset=utf-16", "utf-16", [0xE9]⟩).2.1
      (by decide) (by decide) (by decide) (by decide)
    simpa using h
  · exact (doResponse_pipeline_spec (fun _ => none) (fun _ => none) 1
      ⟨500, "application/json", "", [1, 2, 3]⟩).2.2 (by decide)

/-- Model of the wall-clock instant a Go `time.Time` holds after parsing one
of the source's layouts: calendar fields plus the zone offset in minutes.
(Sub-second precision is irrelevant here: the marshalling layout `RFC3339`
carries no fraction, so fractional digits accepted on input are discarded;
`time.Time.IsZero` — January 1 of year 1, 00:00:00 UTC — is modelled as
equality with `GoTime.zero`.) -/
structure GoTime where
  year : Nat
  month : Nat
  day : Nat
  hour : Nat
  minute : Nat
  second : Nat
  offsetMinutes : Int
deriving DecidableEq, Repr

/-- The zero `time.Time`. -/
def GoTime.zero : GoTime := ⟨1, 1, 1, 0, 0, 0, 0⟩

def digitVal? (c : Char) : Option Nat :=
  if '0' ≤ c ∧ c ≤ '9' then some (c.toNat - 48) else none

def parse2 : List Char → Option (Nat × List Char)
  | c1 :: c2 :: rest =>
    match digitVal? c1, digitVal? c2 with
    | some d1, some d2 => some (10 * d1 + d2, rest)
    | _, _ => none
  | _ => none

def parse4 : List Char → Option (Nat × List Char)
  | c1 :: c2 :: c3 :: c4 :: rest =>
    match digitVal? c1, digitVal? c2, digitVal? c3, digitVal? c4 with
    | some d1, some d2, some d3, some d4 =>
      some (1000 * d1 + 100 * d2 + 10 * d3 + d4, rest)
    | _, _, _, _ => none
  | _ => none

def expect (c : Char) : List Char → Option (List Char)
  | x :: rest => if x = c then some rest else none
  | [] => none

def dropDigits : List Char → List Char
  | c :: rest => if (digitVal? c).isSome then dropDigits rest else c :: rest
  | [] => []

/-- Optional fractional seconds after the seconds field, as `time.Parse`
accepts them for layouts without a fraction: a period followed by at least
one digit, discarded. -/
def parseFracOpt : List Char → Option (List Char)
  | '.' :: rest =>
    match rest with
    | c :: _ => if (digitVal? c).isSome then some (dropDigits rest) else none
    | [] => none
  | cs => some cs

/-- Numeric zone offset or the literal `Z` (UTC), as the `Z07:00` layout
chunk of `time.RFC3339` parses it. -/
def parseOffset : List Char → Option (Int × List Char)
  | 'Z' :: rest => some (0, rest)
  | '+' :: rest => do
    let (h, r1) ← parse2 rest
    let r2 ← expect ':' r1
    let (m, r3) ← parse2 r2
    if h ≤ 23 ∧ m ≤ 59 then some (((h * 60 + m : Nat) : Int), r3) else none
  | '-' :: rest => do
    let (h, r1) ← parse2 rest
    let r2 ← expect ':' r1
    let (m, r3) ← parse2 r2
    if h ≤ 23 ∧ m ≤ 59 then some ((-(h * 60 + m : Nat) : Int), r3) else none
  | _ => none

def isLeapYear (y : Nat) : Bool :=
  (y % 4 = 0 && y % 100 ≠ 0) || y % 400 = 0

def daysInMonth (y m : Nat) : Nat :=
  if m = 2 then (if isLeapYear y then 29 else 28)
  else if m = 4 ∨ m = 6 ∨ m = 9 ∨ m = 11 then 30
  else 31

/-- The range checks `time.Parse` performs on parsed calendar fields. -/
def mkGoTime (y mo d h mi s : Nat) (off : Int) : Option GoTime :=
  if 1 ≤ mo ∧ mo ≤ 12 ∧ 1 ≤ d ∧ d ≤ daysInMonth y mo ∧ h ≤ 23 ∧ mi ≤ 59 ∧ s ≤ 59 then
    some ⟨y, mo, d, h, mi, s, off⟩
  else none

/-- `time.Parse` with layout `time.RFC3339`
(`2006-01-02T15:04:05Z07:00`): full date-time with seconds, optional
fractional seconds, and a `Z`-or-numeric offset. -/
def parseRFC3339 (s : String) : Option GoTime := do
  let (y, r) ← parse4 s.data
  let r ← expect '-' r
  let (mo, r) ← parse2 r
  let r ← expect '-' r
  let (d, r) ← parse2 r
  let r ← expect 'T' r
  let (h, r) ← parse2 r
  let r ← expect ':' r
  let (mi, r) ← parse2 r
  let r ← expect ':' r
  let (se, r) ← parse2 r
  let r ← parseFracOpt r
  let (off, r) ← parseOffset r
  if r = [] then mkGoTime y mo d h mi se off else none

/-- `time.Parse` with layout `2006-01-02T15:04Z` (minute precision, no
seconds, literal `Z`): seconds default to zero and the location to UTC. -/
def parseMinuteNoSecondsZ (s : String) : Option GoTime := do
  let (y, r) ← parse4 s.data
  let r ← expect '-' r
  let (mo, r) ← parse2 r
  let r ← expect '-' r
  let (d, r) ← parse2 r
  let r ← expect 'T' r
  let (h, r) ← parse2 r
  let r ← expect ':' r
  let (mi, r) ← parse2 r
  let r ← expect 'Z' r
  if r = [] then mkGoTime y mo d h mi 0 0 else none

/-- `time.Parse` with layout `2006-01-02T15:04:05Z` (second precision,
literal `Z`). -/
def parseSecondsZ (s : String) : Option GoTime := do
  let (y, r) ← parse4 s.data
  let r ← expect '-' r
  let (mo, r) ← parse2 r
  let r ← expect '-' r
  let (d, r) ← parse2 r
  let r ← expect 'T' r
  let (h, r) ← parse2 r
  let r ← expect ':' r
  let (mi, r) ← parse2 r
  let r ← expect ':' r
  let (se, r) ← parse2 r
  let r ← parseFracOpt r
  let r ← expect 'Z' r
  if r = [] then mkGoTime y mo d h mi se 0 else none

def pad2 (n : Nat) : String :=
  if n < 10 then "0" ++ toString n else toString n

def pad4 (n : Nat) : String :=
  if n < 10 then "000" ++ toString n
  else if n < 100 then "00" ++ toString n
  else if n < 1000 then "0" ++ toString n
  else toString n

/-- The `Z07:00` layout chunk on output: `Z` for UTC, otherwise a signed
`hh:mm` offset. -/
def formatOffset (off : Int) : String :=
  if off = 0 then "Z"
  else (if off < 0 then "-" else "+") ++ pad2 (off.natAbs / 60) ++ ":" ++ pad2 (off.natAbs % 60)

/-- `time.Time.Format(time.RFC3339)`. -/
def formatRFC3339 (t : GoTime) : String :=
  pad4 t.year ++ "-" ++ pad2 t.month ++ "-" ++ pad2 t.day ++ "T" ++
    pad2 t.hour ++ ":" ++ pad2 t.minute ++ ":" ++ pad2 t.second ++ formatOffset t.offsetMinutes

/-- The body of a JSON string literal with no escape sequences (the only
kind of timestamp text the API wire format carries; `json.Unmarshal`'s escape
processing is not modelled). -/
def jsonStringBody? : List Char → Option (List Char)
  | [] => none
  | ['"'] => some []
  | c :: rest =>
    if c = '"' ∨ c = '\\' then none
    else (jsonStringBody? rest).map (c :: ·)

/-- `json.Unmarshal(data, &raw)` for a `string` target on escape-free input:
the quoted body, or failure for non-string tokens. -/
def jsonString? (data : String) : Option String :=
  match data.data with
  | '"' :: rest => (jsonStringBody? rest).map (fun cs => String.mk cs)
  | _ => none

/-- `model/common.go` `MeteocatTime.UnmarshalJSON`: `null` leaves the zero
value; otherwise the JSON string is tried against `time.RFC3339`, then
`2006-01-02T15:04Z`, then `2006-01-02T15:04:05Z`, in that order; no match is
an error naming the unparsed text. -/
def meteocatTimeUnmarshal (data : String) : Except String GoTime :=
  if data = "null" then .ok GoTime.zero
  else
    match jsonString? data with
    | none => .error "json: cannot unmarshal into string"
    | some raw =>
      match parseRFC3339 raw with
      | some t => .ok t
      | none =>
        match parseMinuteNoSecondsZ raw with
        | some t => .ok t
        | none =>
          match parseSecondsZ raw with
          | some t => .ok t
          | none => .error ("parse time " ++ goQuote raw)

/-- `model/common.go` `MeteocatTime.MarshalJSON`: the zero instant encodes
as `null`, every other instant as the quoted RFC3339 rendering. -/
def meteocatTimeMarshal (t : GoTime) : String :=
  if t = GoTime.zero then "null" else goQuote (formatRFC3339 t)

/-- C6: timestamp decoding tries RFC3339, then minute-precision-no-seconds,
then second-precision, returning the first successful parse; JSON `null`
yields the zero instant without error and unparsable text fails naming the
text; encoding always emits the canonical full-precision RFC3339 layout with
the zero instant as `null`; and round-tripping `"2020-08-20T00:00Z"` yields
`"2020-08-20T00:00:00Z"`, the same instant with seconds added. -/
theorem meteocatTime_spec (data raw : String) (t : GoTime) :
    meteocatTimeUnmarshal "null" = .ok GoTime.zero ∧
    (data ≠ "null" → jsonString? data = some raw → parseRFC3339 raw = some t →
      meteocatTimeUnmarshal data = .ok t) ∧
    (data ≠ "null" → jsonString? data = some raw → parseRFC3339 raw = none →
      parseMinuteNoSecondsZ raw = some t → meteocatTimeUnmarshal data = .ok t) ∧
    (data ≠ "null" → jsonString? data = some raw → parseRFC3339 raw = none →
      parseMinuteNoSecondsZ raw = none → parseSecondsZ raw = none →
      meteocatTimeUnmarshal data = .error ("parse time " ++ goQuote raw)) ∧
    meteocatTimeMarshal GoTime.zero = "null" ∧
    (t ≠ GoTime.zero → meteocatTimeMarshal t = goQuote (formatRFC3339 t)) ∧
    meteocatTimeUnmarshal (goQuote "2020-08-20T00:00Z") = .ok ⟨2020, 8, 20, 0, 0, 0, 0⟩ ∧
    meteocatTimeMarshal ⟨2020, 8, 20, 0, 0, 0, 0⟩ = goQuote "2020-08-20T00:00:00Z" := by
  refine ⟨by decide, ?_, ?_, ?_, by decide, ?_, by decide, by decide⟩
  · intro hnull hjs hp
    simp [meteocatTimeUnmarshal, hnull, hjs, hp]
  · intro hnull hjs hp1 hp2
    simp [meteocatTimeUnmarshal, hnull, hjs, hp1, hp2]
  · intro hnull hjs hp1 hp2 hp3
    simp [meteocatTimeUnmarshal, hnull, hjs, hp1, hp2, hp3]
  · intro hz
    simp [meteocatTimeMarshal, hz]

/-- C6 witness: a full-precision offset timestamp decodes through the first
layout; the minute-precision example decodes through the second after the
first fails; text matching no layout fails naming the text; a non-zero
instant encodes through the canonical layout. -/
theorem meteocatTime_spec_witness :
    meteocatTimeUnmarshal (goQuote "2021-06-01T12:30:45+02:00") =
      .ok ⟨2021, 6, 1, 12, 30, 45, 120⟩ ∧
    meteocatTimeUnmarshal (goQuote "2020-08-20T00:00Z") = .ok ⟨2020, 8, 20, 0, 0, 0, 0⟩ ∧
    meteocatTimeUnmarshal (goQuote "bogus") = .error ("parse time " ++ goQuote "bogus") ∧
    meteocatTimeMarshal ⟨2021, 6, 1, 12, 30, 45, 120⟩ =
      goQuote (formatRFC3339 ⟨2021, 6, 1, 12, 30, 45, 120⟩) := by
  refine ⟨?_, ?_, ?_, ?_⟩
  · exact (meteocatTime_spec (goQuote "2021-06-01T12:30:45+02:00")
      "2021-06-01T12:30:45+02:00" ⟨2021, 6, 1, 12, 30, 45, 120⟩).2.1
      (by decide) (by decide) (by decide)
  · exact (meteocatTime_spec (goQuote "2020-08-20T00:00Z")
      "2020-08-20T00:00Z" ⟨2020, 8, 20, 0, 0, 0, 0⟩).2.2.1
      (by decide) (by decide) (by decide) (by decide)
  · exact (meteocatTime_spec (goQuote "bogus") "bogus" GoTime.zero).2.2.2.1
      (by decide) (by decide) (by decide) (by decide) (by decide)
  · exact (meteocatTime_spec "null" "" ⟨2021, 6, 1, 12, 30, 45, 120⟩).2.2.2.2.2.1
      (by decide)

/-- `json.Unmarshal(data, &str)` for a `string` target as
`StringOrFloat64.UnmarshalJSON` invokes it: succeeds on a JSON string
(yielding its body) and on `null` (leaving the zero value `""`); fails on
any other token. -/
def goUnmarshalString (data : String) : Option String :=
  if data = "null" then some "" else jsonString? data

/-- `model/forecast.go` `StringOrFloat64.UnmarshalJSON`: empty wire data
becomes the text `0`; otherwise string decoding is attempted first, then
numeric decoding, then the raw wire bytes verbatim.  `numFmt` is the
collaborator composing `json.Unmarshal(data, &num)` over `float64` with
`fmt.Sprintf("%v", num)`: `some s` means the token parsed as a number whose
default rendering is `s`, `none` that numeric parsing failed.  The Go method
always returns a nil error; accordingly this model is total. -/
def stringOrFloat64Unmarshal (numFmt : String → Option String) (data : String) : String :=
  if data.length = 0 then "0"
  else
    match goUnmarshalString data with
    | some s => s
    | none =>
      match numFmt data with
      | some s => s
      | none => data

/-- `model/forecast.go` `StringOrFloat64.MarshalJSON`: always a quoted JSON
string. -/
def stringOrFloat64Marshal (s : String) : String :=
  goQuote s

/-- C7: flexible-scalar decoding is total and ordered — empty wire data
yields the literal text `0`; a JSON string yields its body regardless of the
numeric collaborator; otherwise a successful numeric parse yields the
number's default rendering; otherwise the raw wire bytes stand verbatim.
Encoding always emits a quoted string; in particular the JSON string
`"16.9"` and the JSON number `16.9` both decode to the text `16.9`, which
re-encodes as the quoted string `"16.9"`. -/
theorem stringOrFloat64_spec (numFmt : String → Option String) (data : String) :
    (data = "" → stringOrFloat64Unmarshal numFmt data = "0") ∧
    (∀ s, goUnmarshalString data = some s → stringOrFloat64Unmarshal numFmt data = s) ∧
    (∀ s, data ≠ "" → goUnmarshalString data = none → numFmt data = some s →
      stringOrFloat64Unmarshal numFmt data = s) ∧
    (data ≠ "" → goUnmarshalString data = none → numFmt data = none →
      stringOrFloat64Unmarshal numFmt data = data) ∧
    stringOrFloat64Unmarshal numFmt (goQuote "16.9") = "16.9" ∧
    (numFmt "16.9" = some "16.9" → stringOrFloat64Unmarshal numFmt "16.9" = "16.9") ∧
    stringOrFloat64Marshal "16.9" = goQuote "16.9" := by
  have hempty : ∀ s : String, s.length = 0 → s = "" := by
    intro s h
    cases s with
    | mk l =>
      cases l with
      | nil => rfl
      | cons c t => simp [String.length] at h
  refine ⟨?_, ?_, ?_, ?_, ?_, ?_, rfl⟩
  · rintro rfl
    rfl
  · intro s hs
    have hne : ¬data.length = 0 := by
      intro h0
      rw [hempty data h0] at hs
      simp [goUnmarshalString, jsonString?] at hs
    simp [stringOrFloat64Unmarshal, hne, hs]
  · intro s hd hs hn
    have hne : ¬data.length = 0 := fun h0 => hd (hempty data h0)
    simp [stringOrFloat64Unmarshal, hne, hs, hn]
  · intro hd hs hn
    have hne : ¬data.length = 0 := fun h0 => hd (hempty data h0)
    simp [stringOrFloat64Unmarshal, hne, hs, hn]
  · have hlen : ¬(goQuote "16.9").length = 0 := by decide
    have hgs : goUnmarshalString (goQuote "16.9") = some "16.9" := by decide
    simp [stringOrFloat64Unmarshal, hlen, hgs]
  · intro hn
    have hlen : ¬("16.9" : String).length = 0 := by decide
    have hs : goUnmarshalString "16.9" = none := by decide
    simp [stringOrFloat64Unmarshal, hlen, hs, hn]

/-- The numeric collaborator used by the C7 witness: the token `16.9` parses
as a float64 whose `%v` rendering is `16.9` (and nothing else is needed). -/
def numFmtExample : String → Option String :=
  fun s => if s = "16.9" then some "16.9" else none

/-- C7 witness: under `numFmtExample`, the JSON string `"16.9"` and the JSON
number token `16.9` both decode to the text `16.9`; the empty token decodes
to `0`; an unparseable token is kept verbatim; and marshalling quotes. -/
theorem stringOrFloat64_spec_witness :
    stringOrFloat64Unmarshal numFmtExample (goQuote "16.9") = "16.9" ∧
    stringOrFloat64Unmarshal numFmtExample "16.9" = "16.9" ∧
    stringOrFloat64Unmarshal numFmtExample "" = "0" ∧
    stringOrFloat64Unmarshal numFmtExample "nope" = "nope" ∧
    stringOrFloat64Marshal "16.9" = "\"16.9\"" := by
  refine ⟨?_, ?_, ?_, ?_, ?_⟩
  · exact (stringOrFloat64_spec numFmtExample (goQuote "16.9")).2.2.2.2.1
  · exact (stringOrFloat64_spec numFmtExample "16.9").2.2.2.2.2.1 (by decide)
  · exact (stringOrFloat64_spec numFmtExample "").1 rfl
  · exact (stringOrFloat64_spec numFmtExample "nope").2.2.2.1 (by decide) (by decide) (by decide)
  · exact (stringOrFloat64_spec numFmtExample "16.9").2.2.2.2.2.2

end Meteocat
